import Mathlib

/-!
Verification of the OAuth 1.0a signing, token-storage and handshake-flow
components of the fatsecret-mcp-server repository, as a shallow embedding in
Lean 4.  Python functions from `auth.py`, `token_store.py` and `oauth_flow.py`
are translated into executable Lean definitions (impure inputs such as the
current time, the fresh nonce and the HTTP transport's answer become explicit
parameters; raised exceptions become `Except` errors), and the specification's
claims are settled as theorems about those definitions.
-/

set_option maxRecDepth 16384

namespace FatSecret

/-! ## Percent encoding (`OAuth1Signer._percent_encode`, i.e. CPython
`urllib.parse.quote(value, safe="")`)

`quote` operates on the UTF-8 bytes of the string; bytes in the always-safe
set (ASCII letters, digits, `_.-~`) are emitted verbatim, every other byte as
`%XX` with upper-case hex digits. -/

/-- UTF-8 encoding of one Unicode scalar value, as a list of byte values. -/
def utf8Bytes (c : Char) : List Nat :=
  let n := c.toNat
  if n < 0x80 then [n]
  else if n < 0x800 then [0xC0 + n / 0x40, 0x80 + n % 0x40]
  else if n < 0x10000 then
    [0xE0 + n / 0x1000, 0x80 + (n / 0x40) % 0x40, 0x80 + n % 0x40]
  else
    [0xF0 + n / 0x40000, 0x80 + (n / 0x1000) % 0x40,
     0x80 + (n / 0x40) % 0x40, 0x80 + n % 0x40]

/-- UTF-8 bytes of a whole string (Python `s.encode("utf-8")`). -/
def strBytes (s : String) : List Nat :=
  s.data.flatMap utf8Bytes

/-- CPython's `_ALWAYS_SAFE` byte set: ASCII alphanumerics and `_ . - ~`.
With `safe=""` these are exactly the bytes `quote` leaves unencoded. -/
def alwaysSafeByte (b : Nat) : Bool :=
  (0x41 ≤ b && b ≤ 0x5A) || (0x61 ≤ b && b ≤ 0x7A) ||
  (0x30 ≤ b && b ≤ 0x39) || b == 0x5F || b == 0x2E || b == 0x2D || b == 0x7E

/-- Upper-case hexadecimal digit for a value below 16. -/
def hexDigitUpper (n : Nat) : Char :=
  if n < 10 then Char.ofNat (0x30 + n) else Char.ofNat (0x41 + (n - 10))

/-- How `urllib.parse.quote` renders a single byte with `safe=""`. -/
def quoteByte (b : Nat) : List Char :=
  if alwaysSafeByte b then [Char.ofNat b]
  else ['%', hexDigitUpper (b / 16), hexDigitUpper (b % 16)]

/-- Method `OAuth1Signer._percent_encode`: `urllib.parse.quote(str(value), safe="")`. -/
def percentEncode (s : String) : String :=
  String.mk ((strBytes s).flatMap quoteByte)

/-- CPython `urllib.parse.quote(value)` with the default `safe="/"`, used by
`OAuthFlowManager.get_authorization_url`. -/
def percentEncodeDefault (s : String) : String :=
  String.mk ((strBytes s).flatMap
    (fun b => if b == 0x2F then [Char.ofNat b] else quoteByte b))

/-! ## Python `dict[str, str]` as an insertion-ordered association list

A Python dict has unique keys; we model it as a `List (String × String)` and
give the operations the source uses: lookup (`d.get(k)`), update
(`d[k] = v`), and the merge `{**a, **b}` (keys of `a` keep their position,
values from `b` win on collision, new keys of `b` are appended). -/

abbrev Params := List (String × String)

/-- Python `d.get(k)`: value at the first occurrence of key `k`. -/
def dictLookup (d : Params) (k : String) : Option String :=
  (d.find? (fun p => p.1 == k)).map (fun p => p.2)

/-- Python `d[k] = v`: replace in place if the key exists, else append. -/
def dictSet (d : Params) (k v : String) : Params :=
  if (d.find? (fun p => p.1 == k)).isSome then
    d.map (fun p => if p.1 == k then (k, v) else p)
  else d ++ [(k, v)]

/-- Python dict merge `{**a, **b}`. -/
def dictMerge (a b : Params) : Params :=
  (a.map (fun p =>
    match dictLookup b p.1 with
    | some v => (p.1, v)
    | none => p)) ++
  b.filter (fun p => (dictLookup a p.1).isNone)

/-! ## Parameter sorting (`sorted(params.items())`)

Python sorts the `(key, value)` pairs by tuple comparison: by key, then by
value, comparing strings code point by code point — on the *raw* strings,
before any percent-encoding.  Lean's `String` order is the same code-point
lexicographic order. -/

/-- Code-point lexicographic comparison of character lists — Python's
string `<` (and the same order as Lean's `String.lt`). -/
def charListLt : List Char → List Char → Bool
  | _, [] => false
  | [], _ :: _ => true
  | a :: as, b :: bs =>
    if a.toNat < b.toNat then true
    else if b.toNat < a.toNat then false
    else charListLt as bs

/-- Python string `s < t`. -/
def strLt (s t : String) : Bool := charListLt s.data t.data

/-- Python string `s ≤ t`: not `t < s`. -/
def strLe (s t : String) : Bool := !(strLt t s)

/-- Python tuple comparison `(k₁,v₁) ≤ (k₂,v₂)` on string pairs. -/
def pairLe (p q : String × String) : Bool :=
  strLt p.1 q.1 || (p.1 == q.1 && strLe p.2 q.2)

/-- Python `sorted(params.items())`. -/
def sortParams (d : Params) : Params :=
  d.mergeSort pairLe

/-! ## Signature base string (`OAuth1Signer._create_signature_base_string`) -/

/-- The join `pe(k)=pe(v)` over the sorted pairs, separated by ampersands. -/
def paramString (sortedParams : Params) : String :=
  String.intercalate "&"
    (sortedParams.map (fun p => percentEncode p.1 ++ "=" ++ percentEncode p.2))

/-- Python `method.upper()` (the methods used are ASCII). -/
def strUpper (s : String) : String :=
  String.mk (s.data.map Char.toUpper)

/-- Method `OAuth1Signer._create_signature_base_string(url, method, params)`. -/
def createSignatureBaseString (url method : String) (params : Params) : String :=
  String.intercalate "&"
    [strUpper method, percentEncode url, percentEncode (paramString (sortParams params))]

/-! ## SHA-1, HMAC-SHA1, base64 (CPython `hashlib.sha1`, `hmac.new`,
`base64.b64encode`)

SHA-1 is implemented over byte lists with 32-bit words as `Nat` values
reduced modulo `2 ^ 32`, following FIPS 180-4. -/

/-- Reduction to a 32-bit word. -/
def w32 (n : Nat) : Nat := n % 4294967296

/-- Left rotation of a 32-bit word by `n` places. -/
def rotl (n x : Nat) : Nat :=
  w32 (x <<< n) ||| (x >>> (32 - n))

/-- Big-endian bytes of a 64-bit value. -/
def be64 (n : Nat) : List Nat :=
  [n >>> 56 &&& 255, n >>> 48 &&& 255, n >>> 40 &&& 255, n >>> 32 &&& 255,
   n >>> 24 &&& 255, n >>> 16 &&& 255, n >>> 8 &&& 255, n &&& 255]

/-- Big-endian bytes of a 32-bit word. -/
def be32 (n : Nat) : List Nat :=
  [n >>> 24 &&& 255, n >>> 16 &&& 255, n >>> 8 &&& 255, n &&& 255]

/-- SHA-1 message padding: append `0x80`, zero bytes up to 56 mod 64, then
the bit length as a big-endian 64-bit value. -/
def sha1Pad (msg : List Nat) : List Nat :=
  msg ++ [0x80] ++ List.replicate ((119 - msg.length % 64) % 64) 0 ++
    be64 (msg.length * 8)

/-- Big-endian 32-bit word from four bytes. -/
def word32OfBytes : List Nat → Nat
  | [b0, b1, b2, b3] => b0 <<< 24 ||| b1 <<< 16 ||| b2 <<< 8 ||| b3
  | _ => 0

/-- SHA-1 round function `f_t(b, c, d)`. -/
def sha1F (t b c d : Nat) : Nat :=
  if t < 20 then (b &&& c) ||| ((0xFFFFFFFF ^^^ b) &&& d)
  else if t < 40 then b ^^^ c ^^^ d
  else if t < 60 then (b &&& c) ||| (b &&& d) ||| (c &&& d)
  else b ^^^ c ^^^ d

/-- SHA-1 round constant `K_t`. -/
def sha1K (t : Nat) : Nat :=
  if t < 20 then 0x5A827999
  else if t < 40 then 0x6ED9EBA1
  else if t < 60 then 0x8F1BBCDC
  else 0xCA62C1D6

/-- Message-schedule extension from 16 to 80 words. -/
def sha1Extend (w : Array Nat) : Array Nat :=
  (List.range 64).foldl
    (fun w _ =>
      let j := w.size
      w.push (rotl 1 (w.getD (j - 3) 0 ^^^ w.getD (j - 8) 0 ^^^
                      w.getD (j - 14) 0 ^^^ w.getD (j - 16) 0)))
    w

/-- SHA-1 compression of one 64-byte block into the running state. -/
def sha1Block (h : Nat × Nat × Nat × Nat × Nat) (block : List Nat) :
    Nat × Nat × Nat × Nat × Nat :=
  let w0 := ((List.range 16).map
    (fun i => word32OfBytes ((block.drop (4 * i)).take 4))).toArray
  let w := sha1Extend w0
  let (h0, h1, h2, h3, h4) := h
  let final := (List.range 80).foldl
    (fun (st : Nat × Nat × Nat × Nat × Nat) t =>
      let (a, b, c, d, e) := st
      let temp := w32 (rotl 5 a + sha1F t b c d + e + sha1K t + w.getD t 0)
      (temp, a, rotl 30 b, c, d))
    (h0, h1, h2, h3, h4)
  let (a, b, c, d, e) := final
  (w32 (h0 + a), w32 (h1 + b), w32 (h2 + c), w32 (h3 + d), w32 (h4 + e))

/-- Split a byte list into 64-byte blocks. -/
def blocks64 (l : List Nat) : List (List Nat) :=
  if l.length = 0 then [] else l.take 64 :: blocks64 (l.drop 64)
termination_by l.length
decreasing_by
  simp only [List.length_drop]
  omega

/-- SHA-1 digest (20 bytes) of a byte list. -/
def sha1 (msg : List Nat) : List Nat :=
  let init := (0x67452301, 0xEFCDAB89, 0x98BADCFE, 0x10325476, 0xC3D2E1F0)
  let (h0, h1, h2, h3, h4) := (blocks64 (sha1Pad msg)).foldl sha1Block init
  be32 h0 ++ be32 h1 ++ be32 h2 ++ be32 h3 ++ be32 h4

/-- HMAC-SHA1 (RFC 2104 with SHA-1, block size 64). -/
def hmacSha1 (key msg : List Nat) : List Nat :=
  let k0 := if key.length > 64 then sha1 key else key
  let k := k0 ++ List.replicate (64 - k0.length) 0
  let ipad := k.map (fun b => b ^^^ 0x36)
  let opad := k.map (fun b => b ^^^ 0x5C)
  sha1 (opad ++ sha1 (ipad ++ msg))

/-- Character of the standard base64 alphabet at index `n < 64`. -/
def b64Char (n : Nat) : Char :=
  if n < 26 then Char.ofNat (0x41 + n)
  else if n < 52 then Char.ofNat (0x61 + (n - 26))
  else if n < 62 then Char.ofNat (0x30 + (n - 52))
  else if n = 62 then '+'
  else '/'

/-- Standard base64 encoding of a byte list, with padding. -/
def base64Chars : List Nat → List Char
  | [] => []
  | [b1] =>
    [b64Char (b1 >>> 2), b64Char ((b1 &&& 3) <<< 4), '=', '=']
  | [b1, b2] =>
    [b64Char (b1 >>> 2), b64Char (((b1 &&& 3) <<< 4) ||| (b2 >>> 4)),
     b64Char ((b2 &&& 15) <<< 2), '=']
  | b1 :: b2 :: b3 :: rest =>
    b64Char (b1 >>> 2) :: b64Char (((b1 &&& 3) <<< 4) ||| (b2 >>> 4)) ::
    b64Char (((b2 &&& 15) <<< 2) ||| (b3 >>> 6)) :: b64Char (b3 &&& 63) ::
    base64Chars rest

/-- Python `base64.b64encode(bytes).decode("utf-8")`. -/
def base64Encode (bytes : List Nat) : String :=
  String.mk (base64Chars bytes)

/-! ## The signer (`auth.py`, class `OAuth1Signer`)

The nonce (`secrets.token_hex(16)`) and the timestamp (`str(int(time.time()))`)
are impure; they become explicit string parameters of `signRequest`. -/

/-- Fields of `config.Settings` used by the signer and the flow manager. -/
structure Settings where
  consumer_key : String
  consumer_secret : String
  oauth_request_token_url : String
  oauth_authorize_url : String
  oauth_access_token_url : String
deriving DecidableEq

/-- State of an `OAuth1Signer` instance after `__init__`. -/
structure OAuth1Signer where
  consumer_key : String
  consumer_secret : String
  user_token : Option String
  user_token_secret : String
deriving DecidableEq

/-- Constructor `OAuth1Signer(settings, user_token, user_token_secret)`;
the stored secret is `user_token_secret or ""`. -/
def OAuth1Signer.init (settings : Settings) (userToken : Option String)
    (userTokenSecret : Option String) : OAuth1Signer :=
  { consumer_key := settings.consumer_key
    consumer_secret := settings.consumer_secret
    user_token := userToken
    user_token_secret := userTokenSecret.getD "" }

/-- Python truthiness of an optional string (`if self._user_token:`). -/
def optStrTruthy : Option String → Bool
  | some s => s ≠ ""
  | none => false

/-- The `oauth_params` dict built by `sign_request` before the signature is
added: consumer key, signature method, timestamp, nonce, version, and
`oauth_token` when a (truthy) user token is configured. -/
def oauthParams (signer : OAuth1Signer) (timestamp nonce : String) : Params :=
  [("oauth_consumer_key", signer.consumer_key),
   ("oauth_signature_method", "HMAC-SHA1"),
   ("oauth_timestamp", timestamp),
   ("oauth_nonce", nonce),
   ("oauth_version", "1.0")] ++
  (match signer.user_token with
   | some t => if t ≠ "" then [("oauth_token", t)] else []
   | none => [])

/-- Method `OAuth1Signer._generate_signature(url, method, params)`:
base64 of the HMAC-SHA1 of the base string under the signing key
`pe(consumer_secret) & pe(user_token_secret)`. -/
def generateSignature (signer : OAuth1Signer) (url method : String)
    (params : Params) : String :=
  let baseString := createSignatureBaseString url method params
  let signingKey :=
    percentEncode signer.consumer_secret ++ "&" ++
    percentEncode signer.user_token_secret
  base64Encode (hmacSha1 (strBytes signingKey) (strBytes baseString))

/-- Method `OAuth1Signer.sign_request(url, method, params)` with the impure
timestamp and nonce as parameters. -/
def signRequest (signer : OAuth1Signer) (url method : String) (params : Params)
    (timestamp nonce : String) : Params :=
  let oauthPs := oauthParams signer timestamp nonce
  let allParams := dictMerge params oauthPs
  let signature := generateSignature signer url method allParams
  let oauthPs' := dictSet oauthPs "oauth_signature" signature
  dictMerge params oauthPs'

/-! ## JSON values and Python exceptions

The token store reads and writes a JSON file through `json.load` /
`json.dump`.  A parsed JSON document is modelled by `JValue`; Python dicts
keep insertion order and have unique keys, so objects are ordered field
lists.  Numbers are modelled as rationals (Python floats are not relevant to
any rounding behaviour here: timestamps pass through unchanged). -/

inductive JValue where
  | null : JValue
  | boolean : Bool → JValue
  | num : ℚ → JValue
  | str : String → JValue
  | arr : List JValue → JValue
  | obj : List (String × JValue) → JValue

/-- Python exceptions that the modelled code can raise. -/
inductive PyErr where
  | keyError : String → PyErr
  | typeError : PyErr
  | attributeError : PyErr
  | validationError : PyErr
  | notImplementedError : PyErr
deriving DecidableEq

/-- Python truthiness of a JSON value (`if not token_data:`). -/
def jTruthy : JValue → Bool
  | .null => false
  | .boolean b => b
  | .num q => q ≠ 0
  | .str s => s ≠ ""
  | .arr xs => ¬xs.isEmpty
  | .obj fs => ¬fs.isEmpty

/-- Whether a JSON value is an object (a Python dict). -/
def JValue.isObj : JValue → Bool
  | .obj _ => true
  | _ => false

/-- Field lookup in an object field list (first occurrence). -/
def objGet (fs : List (String × JValue)) (k : String) : Option JValue :=
  ((fs.find? (fun p => p.1 == k)).map (fun p => p.2))

/-- Field update in an object field list: replace in place or append. -/
def objSet (fs : List (String × JValue)) (k : String) (v : JValue) :
    List (String × JValue) :=
  if (fs.find? (fun p => p.1 == k)).isSome then
    fs.map (fun p => if p.1 == k then (k, v) else p)
  else fs ++ [(k, v)]

/-- Field removal from an object field list (`del data[k]`). -/
def objDel (fs : List (String × JValue)) (k : String) :
    List (String × JValue) :=
  fs.filter (fun p => p.1 != k)

/-- Python `data.get(k)` on an arbitrary value: `AttributeError` when the
value is not a dict, else the field or `None`. -/
def jGet (v : JValue) (k : String) : Except PyErr (Option JValue) :=
  match v with
  | .obj fs => .ok (objGet fs k)
  | _ => .error .attributeError

/-- Python `data[k] = v` on an arbitrary value: `TypeError` when the value
does not support string-keyed item assignment. -/
def jSetItem (v : JValue) (k : String) (x : JValue) : Except PyErr JValue :=
  match v with
  | .obj fs => .ok (.obj (objSet fs k x))
  | _ => .error .typeError

/-- Python `data[k]` with a string key on an arbitrary value: the field of a
dict (`KeyError` when absent), `TypeError` otherwise. -/
def jIndex (v : JValue) (k : String) : Except PyErr JValue :=
  match v with
  | .obj fs =>
    match objGet fs k with
    | some x => .ok x
    | none => .error (.keyError k)
  | _ => .error .typeError

/-! ## Token models (`models.py`) -/

/-- Pydantic model `RequestToken`. -/
structure RequestToken where
  oauth_token : String
  oauth_token_secret : String
deriving DecidableEq, Repr

/-- Pydantic model `UserToken`; `created_at` is optional. -/
structure UserToken where
  oauth_token : String
  oauth_token_secret : String
  created_at : Option ℚ := none
deriving DecidableEq, Repr

/-- Pydantic validation of a string field: only a JSON string is accepted. -/
def jAsStr (v : JValue) : Except PyErr String :=
  match v with
  | .str s => .ok s
  | _ => .error .validationError

/-- Pydantic validation of the optional `float` field `created_at`:
a number, `null`, or an absent field (modelled as `none`) are accepted. -/
def jAsOptNum (v : Option JValue) : Except PyErr (Option ℚ) :=
  match v with
  | none => .ok none
  | some .null => .ok none
  | some (.num q) => .ok (some q)
  | some _ => .error .validationError

/-! ## The file-based token store (`token_store.py`, class `TokenStore`)

The storage file's state is modelled by `FileContent`: the file may be
missing, unreadable (any `OSError` on open or read), readable but not valid
JSON (`json.JSONDecodeError`), or readable with a parsed JSON document.
Which of these holds is determined by the file system and `json.load`; the
store's behaviour on each case is what is modelled. -/

inductive FileContent where
  | missing : FileContent
  | unreadable : FileContent
  | notJson : String → FileContent
  | json : JValue → FileContent

/-- Method `TokenStore._read_storage`: the empty dict when the file is
missing, unreadable or not valid JSON; otherwise the parsed document. -/
def readStorage : FileContent → JValue
  | .missing => .obj []
  | .unreadable => .obj []
  | .notJson _ => .obj []
  | .json v => v

/-- Method `TokenStore.load_user_token`. -/
def loadUserToken (fc : FileContent) : Except PyErr (Option UserToken) := do
  let data := readStorage fc
  let tokenData ← jGet data "user_token"
  let tokenData :=
    match tokenData with
    | some v => v
    | none => .null
  if ¬jTruthy tokenData then
    return none
  let tok ← jAsStr (← jIndex tokenData "oauth_token")
  let sec ← jAsStr (← jIndex tokenData "oauth_token_secret")
  let createdAt ← jAsOptNum (← jGet tokenData "created_at")
  return some { oauth_token := tok, oauth_token_secret := sec,
                created_at := createdAt }

/-- Method `TokenStore.load_request_token`. -/
def loadRequestToken (fc : FileContent) : Except PyErr (Option RequestToken) := do
  let data := readStorage fc
  let tokenData ← jGet data "request_token"
  let tokenData :=
    match tokenData with
    | some v => v
    | none => .null
  if ¬jTruthy tokenData then
    return none
  let tok ← jAsStr (← jIndex tokenData "oauth_token")
  let sec ← jAsStr (← jIndex tokenData "oauth_token_secret")
  return some { oauth_token := tok, oauth_token_secret := sec }

/-- Method `TokenStore.save_user_token(token)`; `now` is the impure
`time.time()` used when `token.created_at` is falsy (absent or `0.0`). -/
def saveUserToken (fc : FileContent) (token : UserToken) (now : ℚ) :
    Except PyErr FileContent := do
  let data := readStorage fc
  let createdAt :=
    match token.created_at with
    | some q => if q = 0 then now else q
    | none => now
  let entry : JValue := .obj
    [("oauth_token", .str token.oauth_token),
     ("oauth_token_secret", .str token.oauth_token_secret),
     ("created_at", .num createdAt)]
  let data ← jSetItem data "user_token" entry
  return .json data

/-- Containment of one character list in another, at any position. -/
def listContainsSub (sub l : List Char) : Bool :=
  (List.range (l.length + 1)).any (fun i => sub.isPrefixOf (l.drop i))

/-- Python `k in data` on an arbitrary value: key membership for a dict,
element membership for a list, substring test for a string, `TypeError`
otherwise. -/
def jContainsKey (v : JValue) (k : String) : Except PyErr Bool :=
  match v with
  | .obj fs => .ok (objGet fs k).isSome
  | .arr xs => .ok (xs.any (fun x =>
      match x with
      | .str s => s == k
      | _ => false))
  | .str s => .ok (listContainsSub k.data s.data)
  | _ => .error .typeError

/-- Python `del data[k]` with a string key: field removal on a dict
(the callers only reach it when the key is present), `TypeError` otherwise. -/
def jDelItem (v : JValue) (k : String) : Except PyErr JValue :=
  match v with
  | .obj fs => .ok (.obj (objDel fs k))
  | _ => .error .typeError

/-- Method `TokenStore.delete_user_token`. -/
def deleteUserToken (fc : FileContent) : Except PyErr FileContent := do
  let data := readStorage fc
  let present ← jContainsKey data "user_token"
  if present then
    let data' ← jDelItem data "user_token"
    return .json data'
  else
    return fc

/-- Method `TokenStore.save_request_token(token)`. -/
def saveRequestToken (fc : FileContent) (token : RequestToken) :
    Except PyErr FileContent := do
  let data := readStorage fc
  let entry : JValue := .obj
    [("oauth_token", .str token.oauth_token),
     ("oauth_token_secret", .str token.oauth_token_secret)]
  let data ← jSetItem data "request_token" entry
  return .json data

/-- Method `TokenStore.clear_request_token`. -/
def clearRequestToken (fc : FileContent) : Except PyErr FileContent := do
  let data := readStorage fc
  let present ← jContainsKey data "request_token"
  if present then
    let data' ← jDelItem data "request_token"
    return .json data'
  else
    return fc

/-! ## Form-encoded response parsing (CPython `urllib.parse.parse_qs`)

`parse_qs` splits the body on `&`, skips empty fields, skips fields without
`=` and fields with an empty value (`keep_blank_values=False`), splits each
remaining field at the first `=`, and percent-plus-decodes name and value
(`+` becomes a space, `%XX` pairs become bytes, the byte stream is decoded
as UTF-8 with replacement characters for invalid sequences). -/

/-- Value of an ASCII hex digit, if it is one. -/
def hexVal? (c : Char) : Option Nat :=
  if '0' ≤ c ∧ c ≤ '9' then some (c.toNat - 0x30)
  else if 'A' ≤ c ∧ c ≤ 'F' then some (c.toNat - 0x41 + 10)
  else if 'a' ≤ c ∧ c ≤ 'f' then some (c.toNat - 0x61 + 10)
  else none

/-- Byte stream of a character list in which every valid `%XX` escape has
been replaced by its byte and every other character contributes its UTF-8
bytes.  The `fuel` argument only makes the recursion structural; it is
initialised to the list length, which every step stays under. -/
def pctBytesAux : Nat → List Char → List Nat
  | 0, _ => []
  | _ + 1, [] => []
  | fuel + 1, '%' :: c1 :: c2 :: rest =>
    match hexVal? c1, hexVal? c2 with
    | some h, some l => (h * 16 + l) :: pctBytesAux fuel rest
    | _, _ => utf8Bytes '%' ++ pctBytesAux fuel (c1 :: c2 :: rest)
  | fuel + 1, c :: rest => utf8Bytes c ++ pctBytesAux fuel rest

/-- Percent-unescaped byte stream of a character list. -/
def pctBytes (l : List Char) : List Nat := pctBytesAux l.length l

/-- Whether a byte is a UTF-8 continuation byte. -/
def isCont (b : Nat) : Bool := 0x80 ≤ b && b ≤ 0xBF

/-- UTF-8 decoding with U+FFFD replacement for invalid sequences, with a
structural fuel initialised to the list length. -/
def utf8DecodeAux : Nat → List Nat → List Char
  | 0, _ => []
  | _ + 1, [] => []
  | fuel + 1, b :: rest =>
    if b < 0x80 then Char.ofNat b :: utf8DecodeAux fuel rest
    else if 0xC2 ≤ b ∧ b ≤ 0xDF then
      match rest with
      | b2 :: rest2 =>
        if isCont b2 then
          Char.ofNat ((b - 0xC0) * 0x40 + (b2 - 0x80)) ::
            utf8DecodeAux fuel rest2
        else Char.ofNat 0xFFFD :: utf8DecodeAux fuel (b2 :: rest2)
      | [] => [Char.ofNat 0xFFFD]
    else if 0xE0 ≤ b ∧ b ≤ 0xEF then
      match rest with
      | b2 :: b3 :: rest2 =>
        if isCont b2 && isCont b3 &&
           !(b == 0xE0 && b2 < 0xA0) && !(b == 0xED && b2 ≥ 0xA0) then
          Char.ofNat ((b - 0xE0) * 0x1000 + (b2 - 0x80) * 0x40 + (b3 - 0x80)) ::
            utf8DecodeAux fuel rest2
        else Char.ofNat 0xFFFD :: utf8DecodeAux fuel (b2 :: b3 :: rest2)
      | _ => [Char.ofNat 0xFFFD]
    else if 0xF0 ≤ b ∧ b ≤ 0xF4 then
      match rest with
      | b2 :: b3 :: b4 :: rest2 =>
        if isCont b2 && isCont b3 && isCont b4 &&
           !(b == 0xF0 && b2 < 0x90) && !(b == 0xF4 && b2 ≥ 0x90) then
          Char.ofNat ((b - 0xF0) * 0x40000 + (b2 - 0x80) * 0x1000 +
                      (b3 - 0x80) * 0x40 + (b4 - 0x80)) ::
            utf8DecodeAux fuel rest2
        else Char.ofNat 0xFFFD :: utf8DecodeAux fuel (b2 :: b3 :: b4 :: rest2)
      | _ => [Char.ofNat 0xFFFD]
    else Char.ofNat 0xFFFD :: utf8DecodeAux fuel rest

/-- UTF-8 decoding with U+FFFD replacement for invalid sequences. -/
def utf8Decode (l : List Nat) : List Char := utf8DecodeAux l.length l

/-- CPython `urllib.parse.unquote_plus`. -/
def unquotePlus (s : String) : String :=
  let plusMapped := s.data.map (fun c => if c = '+' then ' ' else c)
  String.mk (utf8Decode (pctBytes plusMapped))

/-- Python `s.split('&')` on the character list: split at every `&`,
keeping empty fields. -/
def splitOnAmp : List Char → List (List Char)
  | [] => [[]]
  | '&' :: rest => [] :: splitOnAmp rest
  | c :: rest =>
    match splitOnAmp rest with
    | [] => [[c]]
    | f :: r => (c :: f) :: r

/-- Python `s.split('=', 1)`: split at the first `=`, if any. -/
def splitFirstEq : List Char → Option (List Char × List Char)
  | [] => none
  | '=' :: rest => some ([], rest)
  | c :: rest =>
    match splitFirstEq rest with
    | some (l, r) => some (c :: l, r)
    | none => none

/-- CPython `urllib.parse.parse_qsl(body)` with default arguments. -/
def parseQsl (body : String) : List (String × String) :=
  (splitOnAmp body.data).filterMap (fun field =>
    if field.isEmpty then none
    else match splitFirstEq field with
      | none => none
      | some (name, value) =>
        if value.isEmpty then none
        else some (unquotePlus (String.mk name), unquotePlus (String.mk value)))

/-- The access pattern `parse_qs(body).get(k, [None])[0]` used by the flow
manager: the value of the first occurrence of key `k`, if any. -/
def parseQsFirst (body k : String) : Option String :=
  ((parseQsl body).find? (fun p => p.1 == k)).map (fun p => p.2)

/-! ## The flow manager (`oauth_flow.py`, class `OAuthFlowManager`)

The HTTP transport is impure: what `httpx` hands back for the single POST a
step issues is an explicit `HttpOutcome` parameter (a response with a status
code and a body text, or a raised `httpx.RequestError` with its message).
`response.raise_for_status()` raises `httpx.HTTPStatusError` exactly when the
status is not a 2xx success status.  A step returns its Python result or
raised exception, the storage file's state afterwards, and the list of
network requests it issued (URL and form body). -/

inductive HttpOutcome where
  | response : Nat → String → HttpOutcome
  | transportError : String → HttpOutcome

/-- Errors escaping a flow step: an `OAuthFlowError` with its message, or an
unhandled Python exception from the token store. -/
inductive FlowErr where
  | oauthFlowError : String → FlowErr
  | pyError : PyErr → FlowErr
deriving DecidableEq

/-- Outcome of one flow step: result or error, the storage file afterwards,
and the POST requests issued (URL, form body). -/
structure FlowResult (α : Type) where
  result : Except FlowErr α
  store : FileContent
  requests : List (String × Params)

/-- Method `OAuthFlowManager.get_request_token(callback)`; `ts` and `nonce`
are the signer's impure inputs and `outcome` is the transport's answer. -/
def getRequestToken (settings : Settings) (callback ts nonce : String)
    (outcome : HttpOutcome) (fc : FileContent) : FlowResult RequestToken :=
  let signer := OAuth1Signer.init settings none none
  let params : Params := [("oauth_callback", callback)]
  let signedParams :=
    signRequest signer settings.oauth_request_token_url "POST" params ts nonce
  let requests := [(settings.oauth_request_token_url, signedParams)]
  match outcome with
  | .transportError msg =>
    ⟨.error (.oauthFlowError ("Failed to get request token: " ++ msg)),
     fc, requests⟩
  | .response status body =>
    if ¬(200 ≤ status ∧ status ≤ 299) then
      ⟨.error (.oauthFlowError
        ("Failed to get request token: HTTP " ++ toString status)),
       fc, requests⟩
    else
      let tok? := parseQsFirst body "oauth_token"
      let sec? := parseQsFirst body "oauth_token_secret"
      if ¬optStrTruthy tok? ∨ ¬optStrTruthy sec? then
        ⟨.error (.oauthFlowError
          ("Invalid response from request token endpoint: " ++ body)),
         fc, requests⟩
      else
        let token : RequestToken :=
          { oauth_token := tok?.getD "", oauth_token_secret := sec?.getD "" }
        match saveRequestToken fc token with
        | .ok fc' => ⟨.ok token, fc', requests⟩
        | .error e => ⟨.error (.pyError e), fc, requests⟩

/-- Method `OAuthFlowManager.get_authorization_url(request_token)`:
pure, no I/O and no state change. -/
def getAuthorizationUrl (settings : Settings) (requestToken : RequestToken) :
    String :=
  settings.oauth_authorize_url ++ "?oauth_token=" ++
    percentEncodeDefault requestToken.oauth_token

/-- Method `OAuthFlowManager.exchange_for_access_token(verifier)`; `now` is
the `time.time()` stamped into the new token, `now2` the `time.time()` that
`save_user_token` would fall back to, and `outcome` the transport's answer. -/
def exchangeForAccessToken (settings : Settings) (verifier ts nonce : String)
    (now now2 : ℚ) (outcome : HttpOutcome) (fc : FileContent) :
    FlowResult UserToken :=
  match loadRequestToken fc with
  | .error e => ⟨.error (.pyError e), fc, []⟩
  | .ok none =>
    ⟨.error (.oauthFlowError
      "No request token found. Please start the authentication flow first."),
     fc, []⟩
  | .ok (some rt) =>
    -- a pydantic model instance is always truthy, so `if not request_token`
    -- only fires on `None`
    let signer := OAuth1Signer.init settings (some rt.oauth_token)
      (some rt.oauth_token_secret)
    let params : Params := [("oauth_verifier", verifier)]
    let signedParams :=
      signRequest signer settings.oauth_access_token_url "POST" params ts nonce
    let requests := [(settings.oauth_access_token_url, signedParams)]
    match outcome with
    | .transportError msg =>
      ⟨.error (.oauthFlowError ("Failed to exchange for access token: " ++ msg)),
       fc, requests⟩
    | .response status body =>
      if ¬(200 ≤ status ∧ status ≤ 299) then
        ⟨.error (.oauthFlowError
          ("Failed to exchange for access token: HTTP " ++ toString status)),
         fc, requests⟩
      else
        let tok? := parseQsFirst body "oauth_token"
        let sec? := parseQsFirst body "oauth_token_secret"
        if ¬optStrTruthy tok? ∨ ¬optStrTruthy sec? then
          ⟨.error (.oauthFlowError
            ("Invalid response from access token endpoint: " ++ body)),
           fc, requests⟩
        else
          let userToken : UserToken :=
            { oauth_token := tok?.getD "", oauth_token_secret := sec?.getD "",
              created_at := some now }
          match saveUserToken fc userToken now2 with
          | .error e => ⟨.error (.pyError e), fc, requests⟩
          | .ok fc1 =>
            match clearRequestToken fc1 with
            | .error e => ⟨.error (.pyError e), fc1, requests⟩
            | .ok fc2 => ⟨.ok userToken, fc2, requests⟩

/-! ## Claim-side definitions

These definitions restate parts of the specification's claims in their own
words, to be compared against the definitions translated from the source. -/

/-- The RFC 3986 unreserved byte set exactly as the specification words it:
ASCII letters, digits, and the four characters `-`, `_`, `.`, `~`. -/
def rfc3986UnreservedByte (b : Nat) : Bool :=
  (0x30 ≤ b && b ≤ 0x39) || (0x41 ≤ b && b ≤ 0x5A) || (0x61 ≤ b && b ≤ 0x7A) ||
  b == 0x2D || b == 0x5F || b == 0x2E || b == 0x7E

/-- Pair comparison by percent-encoded key and then percent-encoded value,
as claim C1 words the sort order. -/
def encPairLeRel (p q : String × String) : Prop :=
  strLt (percentEncode p.1) (percentEncode q.1) = true ∨
  (percentEncode p.1 = percentEncode q.1 ∧
    strLe (percentEncode p.2) (percentEncode q.2) = true)

instance : DecidableRel encPairLeRel :=
  fun _ _ => inferInstanceAs (Decidable (_ ∨ _))

/-- The signature base string as claim C1 states it: the merged parameter
set sorted lexicographically by percent-encoded key and then by
percent-encoded value. -/
def claimBaseString (url method : String) (params : Params) : String :=
  strUpper method ++ "&" ++ percentEncode url ++ "&" ++
    percentEncode (paramString (List.insertionSort encPairLeRel params))

/-- Propositional form of the raw pair order `pairLe`, for use with the
independently defined insertion sort. -/
def pairLeRel (p q : String × String) : Prop := pairLe p q = true

instance : DecidableRel pairLeRel :=
  fun p q => inferInstanceAs (Decidable (pairLe p q = true))

/-- The signature base string with the merged parameter set sorted by raw
key and then raw value, computed with an insertion sort — an algorithm
independent of the source's `sorted` model. -/
def rawSortBaseString (url method : String) (params : Params) : String :=
  strUpper method ++ "&" ++ percentEncode url ++ "&" ++
    percentEncode (paramString (List.insertionSort pairLeRel params))

/-- Specification of the mapping returned by `sign_request` (claim C3):
the output is the application params merged with the generated OAuth params
plus exactly one `oauth_signature` entry; the generated signature is absent
from the signed set (the base-string input) but present in the output; the
OAuth params win over colliding application params in both the signed set
and the output; and the nonce and timestamp are one consistent pair across
the signed set and the output. -/
def SignOutputSpec (signer : OAuth1Signer) (url method : String)
    (params : Params) (ts nonce : String) : Prop :=
  let oauthPs := oauthParams signer ts nonce
  let signedSet := dictMerge params oauthPs
  let sig := generateSignature signer url method signedSet
  let out := signRequest signer url method params ts nonce
  out = dictMerge params (oauthPs ++ [("oauth_signature", sig)])
  ∧ (out.map Prod.fst).Nodup
  ∧ dictLookup out "oauth_signature" = some sig
  ∧ dictLookup signedSet "oauth_signature" = dictLookup params "oauth_signature"
  ∧ (∀ k, dictLookup out k =
      (dictLookup (oauthPs ++ [("oauth_signature", sig)]) k).or
        (dictLookup params k))
  ∧ (∀ k, dictLookup signedSet k =
      (dictLookup oauthPs k).or (dictLookup params k))
  ∧ dictLookup out "oauth_nonce" = some nonce
  ∧ dictLookup signedSet "oauth_nonce" = some nonce
  ∧ dictLookup out "oauth_timestamp" = some ts
  ∧ dictLookup signedSet "oauth_timestamp" = some ts

/-- Specification of the save/load/delete round trip (claim C6, amended):
saving then loading returns the same token; deleting then loading returns
absent; a further delete of the then-empty user-token slot is a no-op, not
an error. -/
def RoundTripSpec (fc : FileContent) (T : UserToken) (now : ℚ) : Prop :=
  ∃ fc1, saveUserToken fc T now = .ok fc1 ∧ loadUserToken fc1 = .ok (some T) ∧
    ∃ fc2, deleteUserToken fc1 = .ok fc2 ∧ loadUserToken fc2 = .ok none ∧
      deleteUserToken fc2 = .ok fc2

/-- Specification of a successful verifier exchange (claim C7): the
returned user token carries the parsed credentials and the creation
timestamp, it is persisted, and the request token is cleared. -/
def ExchangeSuccessSpec (settings : Settings) (verifier ts nonce : String)
    (now now2 : ℚ) (status : Nat) (body : String) (fc : FileContent)
    (atok asec : String) : Prop :=
  let r := exchangeForAccessToken settings verifier ts nonce now now2
    (.response status body) fc
  let tok : UserToken :=
    { oauth_token := atok, oauth_token_secret := asec, created_at := some now }
  r.result = .ok tok
  ∧ 0 < now
  ∧ loadUserToken r.store = .ok (some tok)
  ∧ loadRequestToken r.store = .ok none

/-- Specification of the exchange with no stored request token (claim C8):
an `OAuthFlowError` mentioning the missing request token, raised before any
network request is issued, with the store untouched. -/
def ExchangeNoTokenSpec (settings : Settings) (verifier ts nonce : String)
    (now now2 : ℚ) (outcome : HttpOutcome) (fc : FileContent) : Prop :=
  let r := exchangeForAccessToken settings verifier ts nonce now now2 outcome fc
  r.result = .error (.oauthFlowError
    "No request token found. Please start the authentication flow first.")
  ∧ (∃ pre post,
      "No request token found. Please start the authentication flow first."
        = pre ++ "request token" ++ post)
  ∧ r.requests = []
  ∧ r.store = fc

/-- Specification of the step-1 failure modes (claim C9): a non-2xx status
yields an `OAuthFlowError` whose message contains the numeric status, and a
transport failure yields one whose message contains the underlying cause. -/
def RequestTokenFailureSpec (settings : Settings) (callback ts nonce : String)
    (fc : FileContent) (status : Nat) (body cause : String) : Prop :=
  ((getRequestToken settings callback ts nonce (.response status body) fc).result
      = .error (.oauthFlowError
          ("Failed to get request token: HTTP " ++ toString status))
   ∧ ∃ pre post,
      "Failed to get request token: HTTP " ++ toString status
        = pre ++ toString status ++ post)
  ∧ ((getRequestToken settings callback ts nonce (.transportError cause) fc).result
      = .error (.oauthFlowError ("Failed to get request token: " ++ cause))
   ∧ ∃ pre post,
      "Failed to get request token: " ++ cause = pre ++ cause ++ post)

end FatSecret

deriving instance DecidableEq for Except

namespace FatSecret

/-! ## Helper lemmas about the dictionary model -/

theorem dictLookup_nil (k : String) : dictLookup [] k = none := rfl

theorem dictLookup_cons (p : String × String) (d : Params) (k : String) :
    dictLookup (p :: d) k = if p.1 == k then some p.2 else dictLookup d k := by
  by_cases h : p.1 == k <;> simp [dictLookup, List.find?, h]

/-- Lookup distributes over append. -/
theorem dictLookup_append (l1 l2 : Params) (k : String) :
    dictLookup (l1 ++ l2) k = (dictLookup l1 k).or (dictLookup l2 k) := by
  simp only [dictLookup, List.find?_append]
  cases l1.find? (fun p => p.1 == k) <;> simp

/-- Lookup in the overridden copy of the left dict inside `dictMerge`. -/
theorem dictLookup_mergeLeft (a b : Params) (k : String) :
    dictLookup
      (a.map (fun p =>
        match dictLookup b p.1 with
        | some v => (p.1, v)
        | none => p)) k =
    (dictLookup a k).map (fun v => (dictLookup b k).getD v) := by
  induction a with
  | nil => rfl
  | cons p t ih =>
    simp only [List.map_cons]
    cases hv : dictLookup b p.1 with
    | none =>
      rw [dictLookup_cons, dictLookup_cons]
      simp only [hv]
      by_cases hp : p.1 == k
      · have hk : p.1 = k := by simpa using hp
        subst hk
        simp [hv]
      · simp [hp, ih]
    | some v =>
      rw [dictLookup_cons, dictLookup_cons]
      simp only [hv]
      by_cases hp : p.1 == k
      · have hk : p.1 = k := by simpa using hp
        subst hk
        simp [hv]
      · simp [hp, ih]

/-- Lookup in the filtered copy of the right dict inside `dictMerge`. -/
theorem dictLookup_mergeRight (a b : Params) (k : String) :
    dictLookup (b.filter (fun p => (dictLookup a p.1).isNone)) k =
    if (dictLookup a k).isNone then dictLookup b k else none := by
  induction b with
  | nil => simp [dictLookup_nil]
  | cons q t ih =>
    conv_rhs => rw [dictLookup_cons]
    by_cases hq : q.1 == k
    · have hk : q.1 = k := by simpa using hq
      subst hk
      by_cases hmem : (dictLookup a q.1).isNone
      · rw [List.filter_cons_of_pos (by simpa using hmem), dictLookup_cons]
        simp [hmem]
      · rw [List.filter_cons_of_neg (by simpa using hmem), ih]
        simp_all
    · by_cases hmem : (dictLookup a q.1).isNone
      · rw [List.filter_cons_of_pos (by simpa using hmem), dictLookup_cons, ih]
        simp [hq]
      · rw [List.filter_cons_of_neg (by simpa using hmem), ih]
        simp [hq]

/-- Lookup in a Python dict merge: the right dict wins. -/
theorem dictLookup_dictMerge (a b : Params) (k : String) :
    dictLookup (dictMerge a b) k = (dictLookup b k).or (dictLookup a k) := by
  rw [dictMerge, dictLookup_append, dictLookup_mergeLeft, dictLookup_mergeRight]
  cases ha : dictLookup a k <;> cases hb : dictLookup b k <;> simp

/-- Setting an absent key appends it. -/
theorem dictSet_of_absent (d : Params) (k v : String)
    (h : dictLookup d k = none) : dictSet d k v = d ++ [(k, v)] := by
  rw [dictSet, if_neg]
  intro hs
  rcases Option.isSome_iff_exists.mp hs with ⟨p, hp⟩
  simp [dictLookup, hp] at h

/-- Looking up the key just set finds the new value. -/
theorem dictLookup_dictSet_self (d : Params) (k v : String) :
    dictLookup (dictSet d k v) k = some v := by
  by_cases h : (d.find? (fun p => p.1 == k)).isSome
  · rw [dictSet, if_pos h]
    induction d with
    | nil => simp at h
    | cons p t ih =>
      by_cases hp : p.1 == k
      · simp only [List.map_cons, if_pos hp]
        simp [dictLookup_cons]
      · simp only [List.map_cons, if_neg hp]
        rw [dictLookup_cons, if_neg hp]
        apply ih
        simpa [List.find?, hp] using h
  · rw [dictSet, if_neg h, dictLookup_append]
    have : dictLookup d k = none := by
      rw [dictLookup, Option.not_isSome_iff_eq_none.mp h]
      rfl
    simp [this, dictLookup_cons]

/-- The keys of the oauth parameter dict, by cases on the user token. -/
theorem oauthParams_keys (signer : OAuth1Signer) (ts nonce : String) :
    (oauthParams signer ts nonce).map Prod.fst =
      ["oauth_consumer_key", "oauth_signature_method", "oauth_timestamp",
       "oauth_nonce", "oauth_version"] ++
      (match signer.user_token with
       | some t => if t ≠ "" then ["oauth_token"] else []
       | none => []) := by
  rw [oauthParams]
  cases signer.user_token with
  | none => rfl
  | some t =>
    by_cases ht : t ≠ "" <;> simp [ht]

/-- The generated oauth parameters never contain an `oauth_signature` key. -/
theorem oauthParams_no_signature (signer : OAuth1Signer) (ts nonce : String) :
    dictLookup (oauthParams signer ts nonce) "oauth_signature" = none := by
  rw [oauthParams]
  cases signer.user_token with
  | none => rfl
  | some t =>
    by_cases ht : t ≠ ""
    · simp only [if_pos ht]
      rfl
    · simp only [if_neg ht]
      rfl

/-- The nonce recorded in the oauth parameters. -/
theorem oauthParams_nonce (signer : OAuth1Signer) (ts nonce : String) :
    dictLookup (oauthParams signer ts nonce) "oauth_nonce" = some nonce := rfl

/-- The timestamp recorded in the oauth parameters. -/
theorem oauthParams_timestamp (signer : OAuth1Signer) (ts nonce : String) :
    dictLookup (oauthParams signer ts nonce) "oauth_timestamp" = some ts := rfl

/-! ## Claim C4: percent encoding follows RFC 3986 -/

/-- C4: the signer's percent-encoding follows RFC 3986: on every byte, the
unreserved characters (letters, digits, `-_.~`) pass through unencoded and
every other byte becomes an upper-case `%XX` escape — so a space becomes
`%20`, never `+` — and the three example strings encode as the claim
states. -/
theorem percentEncode_rfc3986 :
    (∀ b : Fin 256, quoteByte b.val =
      if rfc3986UnreservedByte b.val then [Char.ofNat b.val]
      else ['%', hexDigitUpper (b.val / 16), hexDigitUpper (b.val % 16)])
    ∧ percentEncode " " = "%20"
    ∧ percentEncode "hello world" = "hello%20world"
    ∧ percentEncode "a&b" = "a%26b"
    ∧ percentEncode "test+value" = "test%2Bvalue" := by
  exact ⟨by decide, by decide, by decide, by decide, by decide⟩

/-! ## Claim C2: the signature is the base64 HMAC-SHA1 of the base string -/

/-- C2: for any signer configuration and any fixed nonce and timestamp, the
`oauth_signature` produced by `sign_request` equals the independently
computed `base64(HMAC-SHA1(signing_key, base_string))`, where the signing
key is `pe(consumer_secret) & pe(user_token_secret or "")` and the base
string is taken over the merged application and oauth parameters.  Since
both sides are functions of the same inputs, pinning the nonce and
timestamp makes the signature deterministic and reproducible. -/
theorem sign_request_signature_is_hmac
    (settings : Settings) (ut uts : Option String) (url method : String)
    (params : Params) (ts nonce : String) :
    dictLookup
      (signRequest (OAuth1Signer.init settings ut uts) url method params ts nonce)
      "oauth_signature"
    = some (base64Encode (hmacSha1
        (strBytes (percentEncode settings.consumer_secret ++ "&" ++
          percentEncode (uts.getD "")))
        (strBytes (createSignatureBaseString url method
          (dictMerge params
            (oauthParams (OAuth1Signer.init settings ut uts) ts nonce)))))) := by
  simp only [signRequest]
  rw [dictLookup_dictMerge, dictLookup_dictSet_self]
  rfl

/-! ## Claim C3: shape of the signed output mapping -/

/-- The override step inside `dictMerge` preserves the keys of the left
dict. -/
theorem map_fst_mergeLeft (a b : Params) :
    ((a.map (fun p =>
      match dictLookup b p.1 with
      | some v => (p.1, v)
      | none => p)).map Prod.fst) = a.map Prod.fst := by
  induction a with
  | nil => rfl
  | cons p t ih =>
    cases hv : dictLookup b p.1 <;> simp [hv, ih]

/-- Lookup fails exactly when the key is absent. -/
theorem dictLookup_eq_none_iff (d : Params) (k : String) :
    dictLookup d k = none ↔ k ∉ d.map Prod.fst := by
  induction d with
  | nil => simp [dictLookup_nil]
  | cons p t ih =>
    rw [dictLookup_cons]
    by_cases hp : p.1 == k
    · have hk : p.1 = k := by simpa using hp
      simp [hp, hk]
    · have hk : ¬p.1 = k := by simpa using hp
      rw [if_neg hp, ih]
      simp only [List.map_cons, List.mem_cons, not_or]
      exact ⟨fun h => ⟨fun hke => hk hke.symm, h⟩, fun h => h.2⟩

/-- A merge of two dicts with unique keys has unique keys. -/
theorem keys_dictMerge_nodup (a b : Params)
    (ha : (a.map Prod.fst).Nodup) (hb : (b.map Prod.fst).Nodup) :
    ((dictMerge a b).map Prod.fst).Nodup := by
  rw [dictMerge, List.map_append, List.nodup_append]
  refine ⟨by rwa [map_fst_mergeLeft], ?_, ?_⟩
  · exact ((b.filter_sublist.map Prod.fst)).nodup hb
  · intro x hx hx'
    rw [map_fst_mergeLeft] at hx
    rcases List.mem_map.mp hx' with ⟨p, hpb, hpx⟩
    rcases List.mem_filter.mp hpb with ⟨_, hnone⟩
    have : dictLookup a p.1 = none := by
      simpa using hnone
    rw [dictLookup_eq_none_iff] at this
    exact this (hpx ▸ hx)

/-- The oauth parameters extended with the signature have unique keys. -/
theorem oauthParamsSig_keys_nodup
    (signer : OAuth1Signer) (ts nonce sig : String) :
    (((oauthParams signer ts nonce) ++ [("oauth_signature", sig)]).map
      Prod.fst).Nodup := by
  rw [List.map_append]
  rw [show ([("oauth_signature", sig)].map Prod.fst) = ["oauth_signature"]
    from rfl]
  rw [oauthParams_keys]
  cases signer.user_token with
  | none => decide
  | some t =>
    by_cases ht : t ≠ ""
    · simp only [if_pos ht]
      decide
    · simp only [if_neg ht]
      decide

/-- C3 (with the application params forming a genuine dict, i.e. with
unique keys): the signed output has the claimed shape, captured by
`SignOutputSpec`. -/
theorem sign_request_output_shape
    (signer : OAuth1Signer) (url method : String) (params : Params)
    (ts nonce : String) (hnd : (params.map Prod.fst).Nodup) :
    SignOutputSpec signer url method params ts nonce := by
  rw [SignOutputSpec]
  have hset : dictSet (oauthParams signer ts nonce) "oauth_signature"
      (generateSignature signer url method
        (dictMerge params (oauthParams signer ts nonce)))
      = (oauthParams signer ts nonce) ++
        [("oauth_signature",
          generateSignature signer url method
            (dictMerge params (oauthParams signer ts nonce)))] :=
    dictSet_of_absent _ _ _ (oauthParams_no_signature signer ts nonce)
  have hout : signRequest signer url method params ts nonce
      = dictMerge params
        ((oauthParams signer ts nonce) ++
          [("oauth_signature",
            generateSignature signer url method
              (dictMerge params (oauthParams signer ts nonce)))]) := by
    simp only [signRequest]
    rw [hset]
  refine ⟨hout, ?_, ?_, ?_, ?_, ?_, ?_, ?_, ?_, ?_⟩
  · rw [hout]
    exact keys_dictMerge_nodup _ _ hnd (oauthParamsSig_keys_nodup _ _ _ _)
  · rw [hout, dictLookup_dictMerge, dictLookup_append,
      oauthParams_no_signature]
    rfl
  · rw [dictLookup_dictMerge, oauthParams_no_signature]
    rfl
  · intro k
    rw [hout, dictLookup_dictMerge]
  · intro k
    rw [dictLookup_dictMerge]
  · rw [hout, dictLookup_dictMerge, dictLookup_append, oauthParams_nonce]
    rfl
  · rw [dictLookup_dictMerge, oauthParams_nonce]
    rfl
  · rw [hout, dictLookup_dictMerge, dictLookup_append, oauthParams_timestamp]
    rfl
  · rw [dictLookup_dictMerge, oauthParams_timestamp]
    rfl

/-- Witness for C3 at a concrete input. -/
theorem sign_request_output_shape_witness :
    (([("b", "2")] : Params).map Prod.fst).Nodup ∧
    SignOutputSpec ⟨"ck", "cs", none, ""⟩
      "https://example.com/api" "POST" [("b", "2")] "1000" "n7" :=
  ⟨by decide,
   sign_request_output_shape _ "https://example.com/api" "POST" _ "1000" "n7"
     (by decide)⟩

/-! ## Claim C1: the signature base string and its parameter order -/

/-- Unfolding of the cons case of the comparison. -/
theorem charListLt_cons_iff (x y : Char) (xs ys : List Char) :
    charListLt (x :: xs) (y :: ys) = true ↔
      x.toNat < y.toNat ∨ (x.toNat = y.toNat ∧ charListLt xs ys = true) := by
  simp only [charListLt]
  by_cases h1 : x.toNat < y.toNat
  · simp [h1]
  · by_cases h2 : y.toNat < x.toNat
    · simp only [if_neg h1, if_pos h2]
      constructor
      · intro h
        exact absurd h (by simp)
      · rintro (h | ⟨h, _⟩)
        · exact absurd h h1
        · omega
    · have hxy : x.toNat = y.toNat := by omega
      simp [h1, h2, hxy]

/-- The comparison is irreflexive. -/
theorem charListLt_irrefl (l : List Char) : charListLt l l = false := by
  induction l with
  | nil => rfl
  | cons a as ih => simp [charListLt, ih]

/-- Characters with equal code points are equal. -/
theorem char_toNat_inj {a b : Char} (h : a.toNat = b.toNat) : a = b := by
  have := congrArg Char.ofNat h
  rwa [Char.ofNat_toNat, Char.ofNat_toNat] at this

/-- Strings with equal character lists are equal. -/
theorem string_data_inj {s t : String} (h : s.data = t.data) : s = t := by
  cases s
  cases t
  exact congrArg String.mk h

/-- The comparison is asymmetric. -/
theorem charListLt_asymm (a b : List Char) (h : charListLt a b = true) :
    charListLt b a = false := by
  induction a generalizing b with
  | nil =>
    cases b with
    | nil => simp [charListLt] at h
    | cons y ys => rfl
  | cons x xs ih =>
    cases b with
    | nil => simp [charListLt] at h
    | cons y ys =>
      rw [charListLt_cons_iff] at h
      rcases h with h | ⟨h, h2⟩
      · rw [show charListLt (y :: ys) (x :: xs) =
          (if y.toNat < x.toNat then true
           else if x.toNat < y.toNat then false
           else charListLt ys xs) from rfl]
        rw [if_neg (by omega), if_pos h]
      · rw [show charListLt (y :: ys) (x :: xs) =
          (if y.toNat < x.toNat then true
           else if x.toNat < y.toNat then false
           else charListLt ys xs) from rfl]
        rw [if_neg (by omega), if_neg (by omega)]
        exact ih ys h2

/-- The comparison is transitive. -/
theorem charListLt_trans (a b c : List Char) (hab : charListLt a b = true)
    (hbc : charListLt b c = true) : charListLt a c = true := by
  induction a generalizing b c with
  | nil =>
    cases c with
    | cons z zs => rfl
    | nil =>
      cases b with
      | nil => simp [charListLt] at hab
      | cons y ys => simp [charListLt] at hbc
  | cons x xs ih =>
    cases b with
    | nil => simp [charListLt] at hab
    | cons y ys =>
      cases c with
      | nil => simp [charListLt] at hbc
      | cons z zs =>
        rw [charListLt_cons_iff] at hab hbc ⊢
        rcases hab with h1 | ⟨h1, h1t⟩ <;> rcases hbc with h2 | ⟨h2, h2t⟩
        · exact Or.inl (by omega)
        · exact Or.inl (by omega)
        · exact Or.inl (by omega)
        · exact Or.inr ⟨by omega, ih ys zs h1t h2t⟩

/-- Lists on which the comparison fails both ways are equal. -/
theorem charListLt_eq_of_not (a b : List Char) (hab : charListLt a b = false)
    (hba : charListLt b a = false) : a = b := by
  induction a generalizing b with
  | nil =>
    cases b with
    | nil => rfl
    | cons y ys => simp [charListLt] at hab
  | cons x xs ih =>
    cases b with
    | nil => simp [charListLt] at hba
    | cons y ys =>
      have h1 : ¬x.toNat < y.toNat := by
        intro h
        rw [show charListLt (x :: xs) (y :: ys) = true from
          (charListLt_cons_iff x y xs ys).mpr (Or.inl h)] at hab
        simp at hab
      have h2 : ¬y.toNat < x.toNat := by
        intro h
        rw [show charListLt (y :: ys) (x :: xs) = true from
          (charListLt_cons_iff y x ys xs).mpr (Or.inl h)] at hba
        simp at hba
      have hxy : x.toNat = y.toNat := by omega
      have htail : charListLt xs ys = false := by
        cases htl : charListLt xs ys with
        | false => rfl
        | true =>
          rw [show charListLt (x :: xs) (y :: ys) = true from
            (charListLt_cons_iff x y xs ys).mpr (Or.inr ⟨hxy, htl⟩)] at hab
          simp at hab
      have htail2 : charListLt ys xs = false := by
        cases htl : charListLt ys xs with
        | false => rfl
        | true =>
          rw [show charListLt (y :: ys) (x :: xs) = true from
            (charListLt_cons_iff y x ys xs).mpr (Or.inr ⟨hxy.symm, htl⟩)] at hba
          simp at hba
      rw [char_toNat_inj hxy, ih ys htail htail2]

/-- String-level transitivity. -/
theorem strLt_trans {a b c : String} (h1 : strLt a b = true)
    (h2 : strLt b c = true) : strLt a c = true :=
  charListLt_trans _ _ _ h1 h2

/-- String-level asymmetry. -/
theorem strLt_asymm {a b : String} (h : strLt a b = true) :
    strLt b a = false :=
  charListLt_asymm _ _ h

/-- String-level irreflexivity. -/
theorem strLt_irrefl (a : String) : strLt a a = false :=
  charListLt_irrefl _

/-- Strings on which the comparison fails both ways are equal. -/
theorem strLt_eq_of_not {a b : String} (h1 : strLt a b = false)
    (h2 : strLt b a = false) : a = b :=
  string_data_inj (charListLt_eq_of_not _ _ h1 h2)

/-- Transitivity of the non-strict string order. -/
theorem strLe_trans {a b c : String} (h1 : strLe a b = true)
    (h2 : strLe b c = true) : strLe a c = true := by
  simp only [strLe, Bool.not_eq_true'] at h1 h2 ⊢
  cases hca : strLt c a with
  | false => rfl
  | true =>
    cases hab : strLt a b with
    | true =>
      rw [strLt_trans hca hab] at h2
      simp at h2
    | false =>
      rw [strLt_eq_of_not hab h1] at hca
      rw [hca] at h2
      simp at h2

/-- Unfolding of the raw pair order into proposition form. -/
theorem pairLe_iff (p q : String × String) :
    pairLe p q = true ↔
      strLt p.1 q.1 = true ∨ (p.1 = q.1 ∧ strLe p.2 q.2 = true) := by
  simp [pairLe, Bool.or_eq_true, Bool.and_eq_true, beq_iff_eq]

instance : IsTrans (String × String) pairLeRel := by
  constructor
  intro a b c hab hbc
  rw [pairLeRel, pairLe_iff] at hab hbc ⊢
  rcases hab with h1 | ⟨h1, h1v⟩ <;> rcases hbc with h2 | ⟨h2, h2v⟩
  · exact Or.inl (strLt_trans h1 h2)
  · exact Or.inl (h2 ▸ h1)
  · exact Or.inl (h1 ▸ h2)
  · exact Or.inr ⟨h1.trans h2, strLe_trans h1v h2v⟩

instance : IsTotal (String × String) pairLeRel := by
  constructor
  intro a b
  rw [pairLeRel, pairLe_iff, pairLeRel, pairLe_iff]
  cases h1 : strLt a.1 b.1 with
  | true => exact Or.inl (Or.inl rfl)
  | false =>
    cases h2 : strLt b.1 a.1 with
    | true => exact Or.inr (Or.inl rfl)
    | false =>
      have hk : a.1 = b.1 := strLt_eq_of_not h1 h2
      cases h3 : strLt b.2 a.2 with
      | true =>
        refine Or.inr (Or.inr ⟨hk.symm, ?_⟩)
        simp [strLe, strLt_asymm h3]
      | false =>
        refine Or.inl (Or.inr ⟨hk, ?_⟩)
        simp [strLe, h3]

instance : IsAntisymm (String × String) pairLeRel := by
  constructor
  intro a b hab hba
  rw [pairLeRel, pairLe_iff] at hab hba
  rcases hab with h1 | ⟨h1, h1v⟩ <;> rcases hba with h2 | ⟨h2, h2v⟩
  · rw [strLt_asymm h1] at h2
    exact absurd h2 (by simp)
  · rw [h2, strLt_irrefl] at h1
    exact absurd h1 (by simp)
  · rw [h1, strLt_irrefl] at h2
    exact absurd h2 (by simp)
  · have hv : a.2 = b.2 := by
      simp only [strLe, Bool.not_eq_true'] at h1v h2v
      exact strLt_eq_of_not h2v h1v
    exact Prod.ext h1 hv

/-- The source's `sorted(params.items())` agrees with an independently
defined insertion sort by the same raw pair order. -/
theorem sortParams_eq_insertionSort (l : Params) :
    sortParams l = List.insertionSort pairLeRel l := by
  have htrans : ∀ a b c : String × String,
      pairLe a b = true → pairLe b c = true → pairLe a c = true :=
    fun a b c hab hbc => IsTrans.trans (r := pairLeRel) a b c hab hbc
  have htotal : ∀ a b : String × String, (pairLe a b || pairLe b a) = true := by
    intro a b
    rcases IsTotal.total (r := pairLeRel) a b with h | h
    · rw [pairLeRel] at h
      simp [h]
    · rw [pairLeRel] at h
      simp [h]
  apply List.eq_of_perm_of_sorted (r := pairLeRel)
    ((List.mergeSort_perm l pairLe).trans
      (List.perm_insertionSort pairLeRel l).symm)
  · exact List.sorted_mergeSort htrans htotal l
  · exact List.sorted_insertionSort pairLeRel l

/-- C1 counterexample: with the extra application parameter `{`, the base
string actually computed by the signer (parameters sorted by their raw
strings) differs from the claim's formula (parameters sorted by their
percent-encoded strings): the key `{` sorts after `a` raw, but its encoding
`%7B` sorts before `a`. -/
theorem claim1_counterexample :
    createSignatureBaseString "https://example.com/api" "POST"
      (dictMerge [("a", "1"), ("\x7b", "2")]
        (oauthParams (OAuth1Signer.init ⟨"key", "secret", "", "", ""⟩ none none)
          "1000" "n7"))
    ≠ claimBaseString "https://example.com/api" "POST"
      (dictMerge [("a", "1"), ("\x7b", "2")]
        (oauthParams (OAuth1Signer.init ⟨"key", "secret", "", "", ""⟩ none none)
          "1000" "n7")) := by
  rw [createSignatureBaseString, sortParams_eq_insertionSort, claimBaseString]
  decide

/-- C1 (amended): the signature base string is
`METHOD & pe(url) & pe(param_string)` where the parameter string joins the
merged pairs as `key=value` with `&` after sorting them by *raw* key and
then *raw* value (not by their percent-encodings); on the claim's example
— params `{b:"2", a:"1", c:"3"}`, method POST, the example URL — the
unescaped parameter segment is exactly `a=1&b=2&c=3` followed by the
`oauth_*` parameters in sorted position. -/
theorem claim1_amended :
    (∀ (url method : String) (params : Params),
      createSignatureBaseString url method params =
        rawSortBaseString url method params)
    ∧ paramString (sortParams
        (dictMerge [("b", "2"), ("a", "1"), ("c", "3")]
          (oauthParams
            (OAuth1Signer.init ⟨"key", "secret", "", "", ""⟩ none none)
            "1000" "n7")))
      = "a=1&b=2&c=3&oauth_consumer_key=key&oauth_nonce=n7&" ++
        "oauth_signature_method=HMAC-SHA1&oauth_timestamp=1000&" ++
        "oauth_version=1.0"
    ∧ createSignatureBaseString "https://example.com/api" "POST"
        (dictMerge [("b", "2"), ("a", "1"), ("c", "3")]
          (oauthParams
            (OAuth1Signer.init ⟨"key", "secret", "", "", ""⟩ none none)
            "1000" "n7"))
      = "POST&" ++ percentEncode "https://example.com/api" ++ "&" ++
        percentEncode
          ("a=1&b=2&c=3&oauth_consumer_key=key&oauth_nonce=n7&" ++
           "oauth_signature_method=HMAC-SHA1&oauth_timestamp=1000&" ++
           "oauth_version=1.0") := by
  refine ⟨?_, ?_, ?_⟩
  · intro url method params
    rw [createSignatureBaseString, sortParams_eq_insertionSort,
      rawSortBaseString]
    rfl
  · rw [sortParams_eq_insertionSort]
    decide
  · rw [createSignatureBaseString, sortParams_eq_insertionSort]
    decide

/-! ## Claim C5: load never raises -/

/-- C5 counterexample: a storage file whose content is valid JSON but of an
unexpected shape makes the load operations raise instead of returning
absent: a truthy `user_token` object missing `oauth_token_secret` raises
`KeyError`, and a JSON array at top level raises `AttributeError` (from
`data.get` on a list). -/
theorem claim5_counterexample :
    loadUserToken (.json (.obj [("user_token",
        .obj [("oauth_token", .str "a")])]))
      = .error (.keyError "oauth_token_secret")
    ∧ loadRequestToken (.json (.arr [.num 1, .num 2]))
      = .error .attributeError :=
  ⟨rfl, rfl⟩

/-- C5 (amended): for a missing file, an unreadable file, or content that is
not valid JSON, `load_user_token` and `load_request_token` return absent and
never raise; contents that parse as JSON of an unexpected shape can raise. -/
theorem claim5_amended (s : String) :
    loadUserToken .missing = .ok none ∧
    loadUserToken .unreadable = .ok none ∧
    loadUserToken (.notJson s) = .ok none ∧
    loadRequestToken .missing = .ok none ∧
    loadRequestToken .unreadable = .ok none ∧
    loadRequestToken (.notJson s) = .ok none :=
  ⟨rfl, rfl, rfl, rfl, rfl, rfl⟩

/-! ## Claim C6: token store round trip -/

/-- Unfolding of field lookup on a cons cell. -/
theorem objGet_cons (p : String × JValue) (t : List (String × JValue))
    (k : String) :
    objGet (p :: t) k = if p.1 == k then some p.2 else objGet t k := by
  by_cases h : p.1 == k <;> simp [objGet, List.find?, h]

/-- Field lookup distributes over append. -/
theorem objGet_append (l1 l2 : List (String × JValue)) (k : String) :
    objGet (l1 ++ l2) k = (objGet l1 k).or (objGet l2 k) := by
  simp only [objGet, List.find?_append]
  cases l1.find? (fun p => p.1 == k) <;> simp

/-- Getting the field just set finds the new value. -/
theorem objGet_objSet_self (fs : List (String × JValue)) (k : String)
    (v : JValue) : objGet (objSet fs k v) k = some v := by
  by_cases h : (fs.find? (fun p => p.1 == k)).isSome
  · rw [objSet, if_pos h]
    induction fs with
    | nil => simp at h
    | cons p t ih =>
      by_cases hp : p.1 == k
      · simp only [List.map_cons, if_pos hp]
        simp [objGet_cons]
      · simp only [List.map_cons, if_neg hp]
        rw [objGet_cons, if_neg hp]
        apply ih
        simpa [List.find?, hp] using h
  · rw [objSet, if_neg h, objGet_append]
    have hnone : objGet fs k = none := by
      rw [objGet, Option.not_isSome_iff_eq_none.mp h]
      rfl
    simp [hnone, objGet_cons]

/-- Getting another field after a set is unchanged. -/
theorem objGet_objSet_ne (fs : List (String × JValue)) (k k' : String)
    (v : JValue) (h : ¬k = k') : objGet (objSet fs k v) k' = objGet fs k' := by
  rw [objSet]
  by_cases hs : (fs.find? (fun p => p.1 == k)).isSome
  · rw [if_pos hs]
    clear hs
    induction fs with
    | nil => rfl
    | cons p t ih =>
      simp only [List.map_cons]
      by_cases hp : p.1 == k
      · have hpk : p.1 = k := by simpa using hp
        rw [if_pos hp, objGet_cons, objGet_cons]
        have h1 : ¬(((k, v) : String × JValue).1 == k') = true := by
          simpa using h
        have h2 : ¬(p.1 == k') = true := by
          rw [hpk]
          simpa using h
        rw [if_neg h1, if_neg h2]
        exact ih
      · rw [if_neg hp, objGet_cons, objGet_cons]
        by_cases hpk : p.1 == k'
        · rw [if_pos hpk, if_pos hpk]
        · rw [if_neg hpk, if_neg hpk]
          exact ih
  · rw [if_neg hs, objGet_append]
    have h1 : objGet [(k, v)] k' = none := by
      simp [objGet, List.find?, show (k == k') = false from by simpa using h]
    simp [h1]

/-- Getting the field just deleted yields nothing. -/
theorem objGet_objDel_self (fs : List (String × JValue)) (k : String) :
    objGet (objDel fs k) k = none := by
  simp only [objDel]
  induction fs with
  | nil => rfl
  | cons p t ih =>
    by_cases hp : p.1 == k
    · rw [List.filter_cons_of_neg
        (by simp [show p.1 = k from by simpa using hp])]
      exact ih
    · rw [List.filter_cons_of_pos (by simpa using hp), objGet_cons,
        if_neg hp]
      exact ih

/-- Getting another field after a delete is unchanged. -/
theorem objGet_objDel_ne (fs : List (String × JValue)) (k k' : String)
    (h : ¬k = k') : objGet (objDel fs k) k' = objGet fs k' := by
  simp only [objDel]
  induction fs with
  | nil => rfl
  | cons p t ih =>
    by_cases hp : p.1 == k
    · have hpk : p.1 = k := by simpa using hp
      rw [List.filter_cons_of_neg (by simp [hpk]), ih, objGet_cons,
        if_neg (by rw [hpk]; simpa using h)]
    · rw [List.filter_cons_of_pos (by simpa using hp), objGet_cons,
        objGet_cons]
      by_cases hpk : p.1 == k'
      · rw [if_pos hpk, if_pos hpk]
      · rw [if_neg hpk, if_neg hpk]
        exact ih

/-- Loading a user token from an object store with a well-formed entry. -/
theorem loadUserToken_entry (fc : FileContent) (fs : List (String × JValue))
    (hfs : readStorage fc = .obj fs) (a b : String) (q : ℚ)
    (hget : objGet fs "user_token" = some (.obj
      [("oauth_token", .str a), ("oauth_token_secret", .str b),
       ("created_at", .num q)])) :
    loadUserToken fc = .ok (some ⟨a, b, some q⟩) := by
  rw [loadUserToken, hfs]
  simp only [objGet] at hget
  simp [jGet, hget, jTruthy, jIndex, objGet, List.find?,
    jAsStr, jAsOptNum, Bind.bind, Except.bind, Pure.pure, Except.pure,
    Functor.map, Except.map]

/-- Loading a user token from an object store without an entry. -/
theorem loadUserToken_absent (fc : FileContent) (fs : List (String × JValue))
    (hfs : readStorage fc = .obj fs)
    (hget : objGet fs "user_token" = none) :
    loadUserToken fc = .ok none := by
  rw [loadUserToken, hfs]
  simp [jGet, hget, jTruthy, Bind.bind, Except.bind,
    Pure.pure, Except.pure]

/-- Loading a request token from an object store with a well-formed entry. -/
theorem loadRequestToken_entry (fc : FileContent)
    (fs : List (String × JValue)) (hfs : readStorage fc = .obj fs)
    (a b : String)
    (hget : objGet fs "request_token" = some (.obj
      [("oauth_token", .str a), ("oauth_token_secret", .str b)])) :
    loadRequestToken fc = .ok (some ⟨a, b⟩) := by
  rw [loadRequestToken, hfs]
  simp only [objGet] at hget
  simp [jGet, hget, jTruthy, jIndex, objGet, List.find?, jAsStr,
    Bind.bind, Except.bind, Pure.pure, Except.pure, Functor.map, Except.map]

/-- Loading a request token from an object store without an entry. -/
theorem loadRequestToken_absent (fc : FileContent)
    (fs : List (String × JValue)) (hfs : readStorage fc = .obj fs)
    (hget : objGet fs "request_token" = none) :
    loadRequestToken fc = .ok none := by
  rw [loadRequestToken, hfs]
  simp [jGet, hget, jTruthy, Bind.bind, Except.bind,
    Pure.pure, Except.pure]

/-- Saving a user token carrying a nonzero timestamp onto a store whose
content reads as a JSON object. -/
theorem saveUserToken_obj (fc : FileContent) (fs : List (String × JValue))
    (hfs : readStorage fc = .obj fs) (a b : String) (q now : ℚ)
    (hq : ¬q = 0) :
    saveUserToken fc ⟨a, b, some q⟩ now =
      .ok (.json (.obj (objSet fs "user_token" (.obj
        [("oauth_token", .str a), ("oauth_token_secret", .str b),
         ("created_at", .num q)])))) := by
  rw [saveUserToken]
  simp [hfs, jSetItem, hq, Bind.bind, Except.bind, Pure.pure, Except.pure]

/-- Deleting the user token when one is stored. -/
theorem deleteUserToken_present (fs : List (String × JValue))
    (hpresent : (objGet fs "user_token").isSome = true) :
    deleteUserToken (.json (.obj fs)) =
      .ok (.json (.obj (objDel fs "user_token"))) := by
  rw [deleteUserToken]
  simp [readStorage, jContainsKey, hpresent, jDelItem, Bind.bind, Except.bind,
    Pure.pure, Except.pure]

/-- Deleting the user token when none is stored is a no-op. -/
theorem deleteUserToken_absent (fs : List (String × JValue))
    (habs : objGet fs "user_token" = none) :
    deleteUserToken (.json (.obj fs)) = .ok (.json (.obj fs)) := by
  rw [deleteUserToken]
  simp [readStorage, jContainsKey, habs, Bind.bind, Except.bind,
    Pure.pure, Except.pure]

/-- Clearing the request token when one is stored. -/
theorem clearRequestToken_present (fs : List (String × JValue))
    (hpresent : (objGet fs "request_token").isSome = true) :
    clearRequestToken (.json (.obj fs)) =
      .ok (.json (.obj (objDel fs "request_token"))) := by
  rw [clearRequestToken]
  simp [readStorage, jContainsKey, hpresent, jDelItem, Bind.bind, Except.bind,
    Pure.pure, Except.pure]

/-- C6 counterexample: a valid `UserToken` with `created_at` absent does not
round-trip: `save_user_token` substitutes the save-time clock (here `100`)
for the falsy `created_at`, so the loaded token differs from the saved
one. -/
theorem claim6_counterexample :
    (saveUserToken .missing (⟨"a", "b", none⟩ : UserToken) 100 >>=
        loadUserToken)
      ≠ .ok (some (⟨"a", "b", none⟩ : UserToken)) := by
  decide

/-- C6 (amended): for every token whose `created_at` carries a nonzero
timestamp, starting from any store whose readable content is a JSON object:
save then load returns exactly the saved token; delete then load returns
absent; and a further delete, with no user token stored, is a no-op, not an
error.  (A token with `created_at` absent or `0.0` is re-stamped with the
save-time clock on save, so it does not round-trip — see the
counterexample.) -/
theorem claim6_roundtrip (fc : FileContent) (T : UserToken) (now q : ℚ)
    (hobj : (readStorage fc).isObj = true)
    (hca : T.created_at = some q) (hq : ¬q = 0) :
    RoundTripSpec fc T now := by
  obtain ⟨fs, hfs⟩ : ∃ fs, readStorage fc = .obj fs := by
    cases h : readStorage fc with
    | obj fs => exact ⟨fs, rfl⟩
    | null => rw [h] at hobj; simp [JValue.isObj] at hobj
    | boolean b => rw [h] at hobj; simp [JValue.isObj] at hobj
    | num q2 => rw [h] at hobj; simp [JValue.isObj] at hobj
    | str s => rw [h] at hobj; simp [JValue.isObj] at hobj
    | arr xs => rw [h] at hobj; simp [JValue.isObj] at hobj
  obtain ⟨t1, t2, tc⟩ := T
  have htc : tc = some q := hca
  subst htc
  rw [RoundTripSpec]
  refine ⟨.json (.obj (objSet fs "user_token" (JValue.obj
      [("oauth_token", .str t1), ("oauth_token_secret", .str t2),
       ("created_at", .num q)]))),
    saveUserToken_obj fc fs hfs t1 t2 q now hq,
    loadUserToken_entry _ _ (by rfl) t1 t2 q (objGet_objSet_self _ _ _),
    .json (.obj (objDel (objSet fs "user_token" (JValue.obj
      [("oauth_token", .str t1), ("oauth_token_secret", .str t2),
       ("created_at", .num q)])) "user_token")),
    deleteUserToken_present _ (by rw [objGet_objSet_self]; rfl),
    loadUserToken_absent _ _ (by rfl) (objGet_objDel_self _ _),
    deleteUserToken_absent _ (objGet_objDel_self _ _)⟩

/-- Witness for C6 at a concrete input. -/
theorem claim6_roundtrip_witness :
    (readStorage .missing).isObj = true ∧
    ((⟨"a", "b", some 5⟩ : UserToken).created_at = some 5) ∧
    ¬(5 : ℚ) = 0 ∧
    RoundTripSpec .missing (⟨"a", "b", some 5⟩ : UserToken) 7 :=
  ⟨rfl, rfl, by norm_num,
   claim6_roundtrip .missing _ 7 5 rfl rfl (by norm_num)⟩

/-! ## Claim C8: exchange without a request token fails fast -/

/-- C8: if the store holds no request token, then for every verifier (and
every timestamp, nonce, clock value and would-be transport answer) the
exchange fails immediately with an `OAuthFlowError` whose message mentions
the missing request token, no network request is issued, and the store is
untouched. -/
theorem exchange_without_request_token
    (settings : Settings) (verifier ts nonce : String) (now now2 : ℚ)
    (outcome : HttpOutcome) (fc : FileContent)
    (hload : loadRequestToken fc = .ok none) :
    ExchangeNoTokenSpec settings verifier ts nonce now now2 outcome fc := by
  rw [ExchangeNoTokenSpec]
  refine ⟨?_,
    ⟨"No ", " found. Please start the authentication flow first.", rfl⟩,
    ?_, ?_⟩ <;>
    simp only [exchangeForAccessToken, hload]

/-- Witness for C8 at a concrete input. -/
theorem exchange_without_request_token_witness :
    loadRequestToken .missing = .ok none ∧
    ExchangeNoTokenSpec ⟨"ck", "cs", "u1", "u2", "u3"⟩ "v" "1" "n" 5 6
      (.response 200 "oauth_token=at1&oauth_token_secret=as1") .missing :=
  ⟨rfl, exchange_without_request_token _ "v" "1" "n" 5 6 _ .missing rfl⟩

/-! ## Claim C9: step-1 failure messages -/

/-- C9: a non-2xx status from the request-token endpoint makes
`get_request_token` fail with an `OAuthFlowError` whose message contains
the numeric status code, and a transport failure makes it fail with an
`OAuthFlowError` whose message contains the underlying cause. -/
theorem request_token_failure_modes
    (settings : Settings) (callback ts nonce : String) (fc : FileContent)
    (status : Nat) (body cause : String)
    (hbad : ¬(200 ≤ status ∧ status ≤ 299)) :
    RequestTokenFailureSpec settings callback ts nonce fc status body
      cause := by
  rw [RequestTokenFailureSpec]
  refine ⟨⟨?_, "Failed to get request token: HTTP ", "", by simp⟩,
    rfl, "Failed to get request token: ", "", by simp⟩
  simp only [getRequestToken]
  rw [if_pos hbad]

/-- Witness for C9 at a concrete input (HTTP 401). -/
theorem request_token_failure_modes_witness :
    ¬(200 ≤ 401 ∧ 401 ≤ 299) ∧
    RequestTokenFailureSpec ⟨"ck", "cs", "u1", "u2", "u3"⟩ "oob" "1" "n"
      .missing 401 "denied" "boom" :=
  ⟨by decide,
   request_token_failure_modes _ "oob" "1" "n" .missing 401 "denied" "boom"
     (by decide)⟩

/-! ## Claim C10: no store mutation on any step-1 error -/

/-- C10: whenever `get_request_token` fails — non-2xx status, transport
error, a 2xx body with a missing or empty token or secret, or the store
itself failing to save — the storage file is left exactly as it was, so a
request token is stored only after a fully successful step 1. -/
theorem get_request_token_error_keeps_store
    (settings : Settings) (callback ts nonce : String)
    (outcome : HttpOutcome) (fc : FileContent) (e : FlowErr)
    (herr : (getRequestToken settings callback ts nonce outcome fc).result
      = .error e) :
    (getRequestToken settings callback ts nonce outcome fc).store = fc := by
  cases outcome with
  | transportError msg => rfl
  | response status body =>
    simp only [getRequestToken] at herr ⊢
    split at herr
    · rename_i h1
      rw [if_pos h1]
    · rename_i h1
      rw [if_neg h1]
      split at herr
      · rename_i h2
        rw [if_pos h2]
      · rename_i h2
        rw [if_neg h2]
        split at herr
        · simp at herr
        · rfl

/-- Witness for C10 at a concrete input (HTTP 401). -/
theorem get_request_token_error_keeps_store_witness :
    (getRequestToken ⟨"ck", "cs", "u1", "u2", "u3"⟩ "oob" "1" "n"
        (.response 401 "denied") .missing).result
      = .error (.oauthFlowError "Failed to get request token: HTTP 401") ∧
    (getRequestToken ⟨"ck", "cs", "u1", "u2", "u3"⟩ "oob" "1" "n"
        (.response 401 "denied") .missing).store = .missing :=
  ⟨rfl,
   get_request_token_error_keeps_store _ "oob" "1" "n" _ .missing
     (.oauthFlowError "Failed to get request token: HTTP 401") rfl⟩

/-! ## Claim C7: successful exchange -/

/-- C7: on a successful exchange — a stored request token, a 2xx response
whose body parses to nonempty `oauth_token` and `oauth_token_secret`, and a
positive clock — the returned `UserToken` carries the parsed credentials
and the creation timestamp, it is persisted in the store, and the stored
request token is cleared, so that `load_request_token` is absent
afterwards. -/
theorem exchange_success
    (settings : Settings) (verifier ts nonce : String) (now now2 : ℚ)
    (status : Nat) (body : String) (fc : FileContent)
    (rt : RequestToken) (atok asec : String)
    (hload : loadRequestToken fc = .ok (some rt))
    (hobj : (readStorage fc).isObj = true)
    (hstatus : 200 ≤ status ∧ status ≤ 299)
    (htok : parseQsFirst body "oauth_token" = some atok)
    (hat : ¬atok = "")
    (hsec : parseQsFirst body "oauth_token_secret" = some asec)
    (has2 : ¬asec = "")
    (hnow : 0 < now) :
    ExchangeSuccessSpec settings verifier ts nonce now now2 status body fc
      atok asec := by
  obtain ⟨fs, hfs⟩ : ∃ fs, readStorage fc = .obj fs := by
    cases h : readStorage fc with
    | obj fs => exact ⟨fs, rfl⟩
    | null => rw [h] at hobj; simp [JValue.isObj] at hobj
    | boolean b => rw [h] at hobj; simp [JValue.isObj] at hobj
    | num q2 => rw [h] at hobj; simp [JValue.isObj] at hobj
    | str s => rw [h] at hobj; simp [JValue.isObj] at hobj
    | arr xs => rw [h] at hobj; simp [JValue.isObj] at hobj
  obtain ⟨td, htd⟩ : ∃ td, objGet fs "request_token" = some td := by
    cases h : objGet fs "request_token" with
    | some td => exact ⟨td, rfl⟩
    | none =>
      rw [loadRequestToken_absent fc fs hfs h] at hload
      simp at hload
  have hq : ¬now = 0 := by
    intro h
    rw [h] at hnow
    exact lt_irrefl 0 hnow
  have hsave := saveUserToken_obj fc fs hfs atok asec now now2 hq
  have hpresent : (objGet (objSet fs "user_token" (JValue.obj
      [("oauth_token", .str atok), ("oauth_token_secret", .str asec),
       ("created_at", .num now)])) "request_token").isSome = true := by
    rw [objGet_objSet_ne _ _ _ _ (by decide), htd]
    rfl
  have hclear := clearRequestToken_present _ hpresent
  rw [ExchangeSuccessSpec]
  refine ⟨?_, hnow, ?_, ?_⟩ <;>
    simp only [exchangeForAccessToken, hload] <;>
    rw [if_neg (not_not_intro hstatus), htok, hsec,
      if_neg (by simp [optStrTruthy, hat, has2])] <;>
    simp only [Option.getD_some, hsave, hclear]
  · exact loadUserToken_entry _ _ (by rfl) atok asec now
      (by rw [objGet_objDel_ne _ _ _ (by decide)]
          exact objGet_objSet_self _ _ _)
  · exact loadRequestToken_absent _ _ (by rfl) (objGet_objDel_self _ _)

/-- Witness for C7 at a concrete input: the spec's full-flow scenario. -/
theorem exchange_success_witness :
    loadRequestToken (.json (.obj [("request_token", .obj
        [("oauth_token", .str "rt1"), ("oauth_token_secret", .str "rs1")])]))
      = .ok (some ⟨"rt1", "rs1"⟩) ∧
    (readStorage (.json (.obj [("request_token", .obj
        [("oauth_token", .str "rt1"),
         ("oauth_token_secret", .str "rs1")])]))).isObj = true ∧
    (200 ≤ 200 ∧ 200 ≤ 299) ∧
    parseQsFirst "oauth_token=at1&oauth_token_secret=as1" "oauth_token"
      = some "at1" ∧
    ¬"at1" = "" ∧
    parseQsFirst "oauth_token=at1&oauth_token_secret=as1"
      "oauth_token_secret" = some "as1" ∧
    ¬"as1" = "" ∧
    (0 : ℚ) < 5 ∧
    ExchangeSuccessSpec ⟨"ck", "cs", "u1", "u2", "u3"⟩ "verifier1" "1" "n"
      5 6 200 "oauth_token=at1&oauth_token_secret=as1"
      (.json (.obj [("request_token", .obj
        [("oauth_token", .str "rt1"), ("oauth_token_secret", .str "rs1")])]))
      "at1" "as1" :=
  ⟨by decide, by decide, by decide, by decide, by decide, by decide,
   by decide, by norm_num,
   exchange_success _ "verifier1" "1" "n" 5 6 200 _ _ ⟨"rt1", "rs1"⟩
     "at1" "as1" (by decide) (by decide) (by decide) (by decide)
     (by decide) (by decide) (by decide) (by norm_num)⟩

end FatSecret
